import Mathlib

/-!
Verification of the `cflog` payload-classification and singleton-logging
logic (`src/cflog.go`), shallowly embedded in Lean 4.

The central routine is `setEntryPayload`, which inspects an arbitrary Go
`interface{}` value, derives a candidate string `s` from it (verbatim for
strings, decoded for byte slices, empty for the untyped nil interface,
and `json.Marshal` output otherwise), and then classifies `s` as either a
text payload or, when `s` starts with the left-brace character and ends
with the right-brace character and parses as a JSON object, a structured
JSON payload.

`jsonpb.UnmarshalString` into a `google.protobuf.Struct` is embedded as a
JSON parser that succeeds exactly on complete JSON documents whose top
level is an object.
-/

set_option maxRecDepth 10000

namespace Cflog

/-- The left-brace character. -/
def leftBrace : Char := Char.ofNat 123

/-- The right-brace character. -/
def rightBrace : Char := Char.ofNat 125

/-- A parsed JSON document, as stored inside a `google.protobuf.Struct`
payload (numbers are kept as their source lexeme; the claims never depend
on numeric decoding). -/
inductive Json where
  | null : Json
  | bool (b : Bool) : Json
  | num (lit : String) : Json
  | str (s : String) : Json
  | arr (elems : List Json) : Json
  | obj (fields : List (String × Json)) : Json
deriving Repr, BEq

/-- JSON insignificant whitespace (RFC 8259: space, tab, newline, carriage
return), as accepted by Go's `encoding/json` scanner. -/
def isJsonWs (c : Char) : Bool :=
  c = ' ' || c = '\t' || c = '\n' || c = '\r'

/-- Drop leading JSON whitespace. -/
def skipWs : List Char → List Char
  | [] => []
  | c :: cs => if isJsonWs c then skipWs cs else c :: cs

/-- Value of a hexadecimal digit, if the character is one. -/
def hexVal (c : Char) : Option Nat :=
  if '0' ≤ c ∧ c ≤ '9' then some (c.toNat - '0'.toNat)
  else if 'a' ≤ c ∧ c ≤ 'f' then some (c.toNat - 'a'.toNat + 10)
  else if 'A' ≤ c ∧ c ≤ 'F' then some (c.toNat - 'A'.toNat + 10)
  else none

/-- Split a leading run of decimal digits off a character list. -/
def splitDigits : List Char → List Char × List Char
  | [] => ([], [])
  | c :: cs =>
    if c.isDigit then
      let (d, r) := splitDigits cs
      (c :: d, r)
    else ([], c :: cs)

/-- Parse the remainder of a JSON string literal (the opening quote has
already been consumed), handling the escape sequences of RFC 8259.
Returns the decoded string and the rest of the input. -/
def parseStringRest : Nat → List Char → List Char → Option (String × List Char)
  | 0, _, _ => none
  | _, [], _ => none
  | fuel + 1, c :: rest, acc =>
    if c = '"' then some (String.mk acc.reverse, rest)
    else if c = '\\' then
      match rest with
      | [] => none
      | e :: rest2 =>
        if e = '"' then parseStringRest fuel rest2 ('"' :: acc)
        else if e = '\\' then parseStringRest fuel rest2 ('\\' :: acc)
        else if e = '/' then parseStringRest fuel rest2 ('/' :: acc)
        else if e = 'b' then parseStringRest fuel rest2 (Char.ofNat 8 :: acc)
        else if e = 'f' then parseStringRest fuel rest2 (Char.ofNat 12 :: acc)
        else if e = 'n' then parseStringRest fuel rest2 ('\n' :: acc)
        else if e = 'r' then parseStringRest fuel rest2 ('\r' :: acc)
        else if e = 't' then parseStringRest fuel rest2 ('\t' :: acc)
        else if e = 'u' then
          match rest2 with
          | h1 :: h2 :: h3 :: h4 :: rest3 =>
            match hexVal h1, hexVal h2, hexVal h3, hexVal h4 with
            | some a, some b, some c2, some d =>
              parseStringRest fuel rest3
                (Char.ofNat (a * 4096 + b * 256 + c2 * 16 + d) :: acc)
            | _, _, _, _ => none
          | _ => none
        else none
    else if c.toNat < 32 then none
    else parseStringRest fuel rest (c :: acc)

/-- Parse a JSON number starting at the head of the input (which must be a
minus sign or a digit); returns its lexeme and the rest of the input.
Grammar of RFC 8259: optional minus, integer part without leading zeros,
optional fraction, optional exponent. -/
def parseNumber (cs : List Char) : Option (String × List Char) :=
  let (sign, cs1) :=
    match cs with
    | '-' :: r => (['-'], r)
    | _ => (([] : List Char), cs)
  match splitDigits cs1 with
  | ([], _) => none
  | (ds, rest) =>
    if ds.length > 1 ∧ ds.headD '0' = '0' then none
    else
      let fracRes : Option (List Char × List Char) :=
        match rest with
        | '.' :: r =>
          match splitDigits r with
          | ([], _) => none
          | (fds, r2) => some ('.' :: fds, r2)
        | _ => some ([], rest)
      match fracRes with
      | none => none
      | some (fracCs, rest2) =>
        let expRes : Option (List Char × List Char) :=
          match rest2 with
          | e :: r =>
            if e = 'e' ∨ e = 'E' then
              let (sgn, r2) :=
                match r with
                | s :: r3 => if s = '+' ∨ s = '-' then ([s], r3) else (([] : List Char), s :: r3)
                | [] => (([] : List Char), ([] : List Char))
              match splitDigits r2 with
              | ([], _) => none
              | (eds, r4) => some (e :: (sgn ++ eds), r4)
            else some ([], e :: r)
          | [] => some ([], [])
        match expRes with
        | none => none
        | some (expCs, rest3) =>
          some (String.mk (sign ++ ds ++ fracCs ++ expCs), rest3)

mutual

/-- Parse one JSON value (after skipping leading whitespace); fuel-indexed
recursive descent. Returns the value and the unconsumed rest. -/
def parseValue : Nat → List Char → Option (Json × List Char)
  | 0, _ => none
  | fuel + 1, cs =>
    match skipWs cs with
    | [] => none
    | c :: rest =>
      if c = 'n' then
        match rest with
        | 'u' :: 'l' :: 'l' :: r => some (Json.null, r)
        | _ => none
      else if c = 't' then
        match rest with
        | 'r' :: 'u' :: 'e' :: r => some (Json.bool true, r)
        | _ => none
      else if c = 'f' then
        match rest with
        | 'a' :: 'l' :: 's' :: 'e' :: r => some (Json.bool false, r)
        | _ => none
      else if c = '"' then
        match parseStringRest (rest.length + 1) rest [] with
        | some (s, r) => some (Json.str s, r)
        | none => none
      else if c = '-' ∨ c.isDigit then
        match parseNumber (c :: rest) with
        | some (lit, r) => some (Json.num lit, r)
        | none => none
      else if c = '[' then
        match skipWs rest with
        | ']' :: r => some (Json.arr [], r)
        | cs2 => parseElems fuel cs2 []
      else if c = leftBrace then
        match skipWs rest with
        | d :: r =>
          if d = rightBrace then some (Json.obj [], r)
          else parseMembers fuel (d :: r) []
        | [] => none
      else none

/-- Parse the elements of a non-empty JSON array, positioned at the start
of the next element; `acc` holds the elements parsed so far, reversed. -/
def parseElems : Nat → List Char → List Json → Option (Json × List Char)
  | 0, _, _ => none
  | fuel + 1, cs, acc =>
    match parseValue fuel cs with
    | none => none
    | some (v, rest) =>
      match skipWs rest with
      | ',' :: r => parseElems fuel r (v :: acc)
      | ']' :: r => some (Json.arr (v :: acc).reverse, r)
      | _ => none

/-- Parse the members of a non-empty JSON object, positioned at the start
of the next member; `acc` holds the members parsed so far, reversed. -/
def parseMembers : Nat → List Char → List (String × Json) → Option (Json × List Char)
  | 0, _, _ => none
  | fuel + 1, cs, acc =>
    match skipWs cs with
    | '"' :: rest =>
      match parseStringRest (rest.length + 1) rest [] with
      | none => none
      | some (key, rest2) =>
        match skipWs rest2 with
        | ':' :: rest3 =>
          match parseValue fuel rest3 with
          | none => none
          | some (v, rest4) =>
            match skipWs rest4 with
            | ',' :: r => parseMembers fuel r ((key, v) :: acc)
            | d :: r =>
              if d = rightBrace then some (Json.obj ((key, v) :: acc).reverse, r)
              else none
            | [] => none
        | _ => none
    | _ => none

end

/-- Parse a complete JSON document: one value followed only by whitespace. -/
def parseJsonDoc (s : String) : Option Json :=
  match parseValue (2 * s.length + 2) s.data with
  | some (j, rest) => if (skipWs rest).isEmpty then some j else none
  | none => none

/-- Embedding of `jsonpb.UnmarshalString(s, &payload)` where `payload` is a
`google.protobuf.Struct`: succeeds exactly when `s` is a complete JSON
document whose top level is an object, yielding the parsed document. -/
def jsonpbUnmarshalString (s : String) : Option Json :=
  match parseJsonDoc s with
  | some (Json.obj fields) => some (Json.obj fields)
  | _ => none

/-- Embedding of `strings.HasPrefix(s, pre)`: does `s` begin with `pre`? -/
def prefixCheck (s pre : String) : Bool := pre.data.isPrefixOf s.data

/-- Embedding of `strings.HasSuffix(s, suf)`: does `s` end with `suf`? -/
def suffixCheck (s suf : String) : Bool := suf.data.isSuffixOf s.data

/-- A Go `interface{}` value as dispatched by the type switch of
`setEntryPayload`:
* `str` — a `string`;
* `bytes` — a `[]byte` (carried as its character list; `string(v)` is
  `String.mk`);
* `nilInterface` — the untyped nil interface, the only value for which
  the `default` branch's `v == nil` test is true;
* `other` — any other (non-nil) value, carried abstractly as the outcome
  of `json.Marshal` on it: either an error or the serialized document
  string. A non-nil interface wrapping a typed nil pointer is such a
  value, with marshal outcome `Except.ok "null"`. -/
inductive GoValue where
  | str (s : String) : GoValue
  | bytes (b : List Char) : GoValue
  | nilInterface : GoValue
  | other (marshal : Except String String) : GoValue

/-- The payload attached to a `loggingpb.LogEntry`: exactly one of the
oneof variants `LogEntry_TextPayload` or `LogEntry_JsonPayload`. -/
inductive Payload where
  | TextPayload (s : String) : Payload
  | JsonPayload (j : Json) : Payload
deriving Repr, BEq

/-- The candidate string `s` computed by the type switch at the top of
`setEntryPayload` (`Except.error` when `json.Marshal` fails and the error
is returned). -/
def candidateString : GoValue → Except String String
  | GoValue.str v => Except.ok v
  | GoValue.bytes v => Except.ok (String.mk v)
  | GoValue.nilInterface => Except.ok ""
  | GoValue.other m => m

/-- The brace-check-and-parse tail of `setEntryPayload`: if `s` starts
with the left brace and ends with the right brace and
`jsonpb.UnmarshalString` succeeds, the entry gets a JSON payload; in
every other case it gets `s` as a text payload. -/
def classifyString (s : String) : Payload :=
  if prefixCheck s "\x7b" && suffixCheck s "\x7d" then
    match jsonpbUnmarshalString s with
    | some payload => Payload.JsonPayload payload
    | none => Payload.TextPayload s
  else Payload.TextPayload s

/-- Embedding of `setEntryPayload(entry, in)`: the payload stored into the
entry, or the `json.Marshal` error that the function returns. -/
def setEntryPayload (input : GoValue) : Except String Payload :=
  match candidateString input with
  | Except.error e => Except.error e
  | Except.ok s => Except.ok (classifyString s)

/-! ### Severities

`Severity` wraps `ltype.LogSeverity`; the constants carry that enum's
numeric values. -/

/-- `Severity` is an integer wrapper around `ltype.LogSeverity`. -/
def Severity : Type := Int

def SeverityDefault : Severity := (0 : Int)

def SeverityDebug : Severity := (100 : Int)

def SeverityInfo : Severity := (200 : Int)

def SeverityNotice : Severity := (300 : Int)

def SeverityWarning : Severity := (400 : Int)

def SeverityError : Severity := (500 : Int)

def SeverityCritical : Severity := (600 : Int)

def SeverityAlert : Severity := (700 : Int)

def SeverityEmergency : Severity := (800 : Int)

/-! ### The singleton convenience logger

The package-level `Log` function lazily constructs a process-wide
singleton `Client` and delegates to its `Log` method, never returning an
error: failures of construction or submission go only to the `log.Printf`
diagnostic side-channel. The external effects (the `logging.NewClient`
outcome and the `Client.Log` outcome) are parameters of the embedding;
the function's result records the observable effects of one call. -/

/-- The environment of one singleton `Log` call: the outcome
`logging.NewClient` would produce if invoked, and the outcome a
`Client.Log` submission would produce if invoked. -/
structure LogEnv where
  newClientOutcome : Except String Unit
  clientLogOutcome : Except String Unit

/-- Observable effects of one call to the package-level `Log`: the
singleton state after the call (`some ()` when `singleton.client` is
non-nil), the `(severity, payload)` arguments of each call made to
`Client.Log`, and each message printed to the `log.Printf` diagnostic
side-channel. Note the record has no error component: the Go function
returns nothing. -/
structure LogEffects where
  singletonAfter : Option Unit
  clientLogCalls : List (Severity × GoValue)
  diagnostics : List String

/-- Embedding of the package-level `Log(ctx, severity, payload)`:
`singletonBefore` is `some ()` when `singleton.client != nil` at entry.
If the singleton is uninitialized, `NewClient` runs first; on its failure
a diagnostic is printed and the call returns without any `Client.Log`
call. Otherwise `singleton.Log` runs, and its error, if any, is printed
as a diagnostic only. -/
def goLog (env : LogEnv) (singletonBefore : Option Unit) (severity : Severity)
    (payload : GoValue) : LogEffects :=
  match singletonBefore with
  | none =>
    match env.newClientOutcome with
    | Except.error e =>
      { singletonAfter := none
        clientLogCalls := []
        diagnostics := ["Could not create client to log payload: " ++ e] }
    | Except.ok _ =>
      match env.clientLogOutcome with
      | Except.error e =>
        { singletonAfter := some ()
          clientLogCalls := [(severity, payload)]
          diagnostics := ["Could not log payload: " ++ e] }
      | Except.ok _ =>
        { singletonAfter := some ()
          clientLogCalls := [(severity, payload)]
          diagnostics := [] }
  | some _ =>
    match env.clientLogOutcome with
    | Except.error e =>
      { singletonAfter := some ()
        clientLogCalls := [(severity, payload)]
        diagnostics := ["Could not log payload: " ++ e] }
    | Except.ok _ =>
      { singletonAfter := some ()
        clientLogCalls := [(severity, payload)]
        diagnostics := [] }

/-- `Debug` calls `Log` with the severity set to Debug. -/
def goDebug (env : LogEnv) (st : Option Unit) (payload : GoValue) : LogEffects :=
  goLog env st SeverityDebug payload

/-- `Info` calls `Log` with the severity set to Info. -/
def goInfo (env : LogEnv) (st : Option Unit) (payload : GoValue) : LogEffects :=
  goLog env st SeverityInfo payload

/-- `Warn` calls `Log` with the severity set to Warning. -/
def goWarn (env : LogEnv) (st : Option Unit) (payload : GoValue) : LogEffects :=
  goLog env st SeverityWarning payload

/-- `Error` calls `Log` with the severity set to Error. -/
def goError (env : LogEnv) (st : Option Unit) (payload : GoValue) : LogEffects :=
  goLog env st SeverityError payload

/-- `Critical` calls `Log` with the severity set to Critical. -/
def goCritical (env : LogEnv) (st : Option Unit) (payload : GoValue) : LogEffects :=
  goLog env st SeverityCritical payload

end Cflog

namespace Cflog

/-! ## Theorems about the payload classifier and the singleton logger -/

/-- C1: a string that does not both start with the left brace and end with
the right brace is classified verbatim as a text payload; in particular no
whitespace trimming happens before the brace check. -/
theorem classify_nonBrace_text (s : String)
    (h : (prefixCheck s "\x7b" && suffixCheck s "\x7d") = false) :
    setEntryPayload (GoValue.str s) = Except.ok (Payload.TextPayload s) := by
  simp [setEntryPayload, candidateString, classifyString, h]

/-- Witness for C1 at the string consisting of a JSON object surrounded by
whitespace: it is classified as text of that exact string. -/
theorem classify_nonBrace_text_witness :
    (prefixCheck " \x7b\"a\":1\x7d " "\x7b" && suffixCheck " \x7b\"a\":1\x7d " "\x7d") = false ∧
    setEntryPayload (GoValue.str " \x7b\"a\":1\x7d ") =
      Except.ok (Payload.TextPayload " \x7b\"a\":1\x7d ") :=
  ⟨by rfl, classify_nonBrace_text " \x7b\"a\":1\x7d " (by rfl)⟩

/-- C2: a string that starts with the left brace, ends with the right
brace, and unmarshals successfully as a JSON object is classified as a
structured payload holding exactly the parsed document. -/
theorem classify_jsonObject_structured (s : String) (j : Json)
    (h1 : prefixCheck s "\x7b" = true) (h2 : suffixCheck s "\x7d" = true)
    (h3 : jsonpbUnmarshalString s = some j) :
    setEntryPayload (GoValue.str s) = Except.ok (Payload.JsonPayload j) := by
  simp [setEntryPayload, candidateString, classifyString, h1, h2, h3]

/-- Witness for C2 at a concrete valid JSON object string. -/
theorem classify_jsonObject_structured_witness :
    prefixCheck "\x7b\"m\": \"m\"\x7d" "\x7b" = true ∧
    suffixCheck "\x7b\"m\": \"m\"\x7d" "\x7d" = true ∧
    jsonpbUnmarshalString "\x7b\"m\": \"m\"\x7d" = some (Json.obj [("m", Json.str "m")]) ∧
    setEntryPayload (GoValue.str "\x7b\"m\": \"m\"\x7d") =
      Except.ok (Payload.JsonPayload (Json.obj [("m", Json.str "m")])) :=
  ⟨by rfl, by rfl, by rfl,
    classify_jsonObject_structured "\x7b\"m\": \"m\"\x7d" (Json.obj [("m", Json.str "m")])
      (by rfl) (by rfl) (by rfl)⟩

/-- C3: a string that starts with the left brace and ends with the right
brace but fails to unmarshal as a JSON object is classified as a text
payload holding the original string, and no error is returned. -/
theorem classify_badJson_text (s : String)
    (h1 : prefixCheck s "\x7b" = true) (h2 : suffixCheck s "\x7d" = true)
    (h3 : jsonpbUnmarshalString s = none) :
    setEntryPayload (GoValue.str s) = Except.ok (Payload.TextPayload s) := by
  simp [setEntryPayload, candidateString, classifyString, h1, h2, h3]

/-- Witness for C3 at the malformed brace-delimited string of the test
suite (a member name missing its opening quote). -/
theorem classify_badJson_text_witness :
    prefixCheck "\x7bm\": \"m\"\x7d" "\x7b" = true ∧
    suffixCheck "\x7bm\": \"m\"\x7d" "\x7d" = true ∧
    jsonpbUnmarshalString "\x7bm\": \"m\"\x7d" = none ∧
    setEntryPayload (GoValue.str "\x7bm\": \"m\"\x7d") =
      Except.ok (Payload.TextPayload "\x7bm\": \"m\"\x7d") :=
  ⟨by rfl, by rfl, by rfl,
    classify_badJson_text "\x7bm\": \"m\"\x7d" (by rfl) (by rfl) (by rfl)⟩

/-- C4: the untyped nil interface is classified as the empty text payload;
no serialization is attempted (the `nilInterface` case of
`candidateString` never consults a marshal outcome) and no error is
returned. -/
theorem classify_nil_emptyText :
    setEntryPayload GoValue.nilInterface = Except.ok (Payload.TextPayload "") := by
  rfl

/-- C5: `setEntryPayload` returns an error exactly when its input is in
the `default` branch of the type switch (neither string, nor bytes, nor
the nil interface) and `json.Marshal` fails on it; on every string, byte
slice, or nil input it never errors. -/
theorem classify_error_iff_marshal_error (v : GoValue) :
    (∃ e, setEntryPayload v = Except.error e) ↔
      (∃ e, v = GoValue.other (Except.error e)) := by
  cases v with
  | str s => simp [setEntryPayload, candidateString]
  | bytes b => simp [setEntryPayload, candidateString]
  | nilInterface => simp [setEntryPayload, candidateString]
  | other m => cases m <;> simp [setEntryPayload, candidateString]

/-- C6: a byte slice is classified exactly as the string decoded from it
(the same brace check applies to the decoded content); in particular the
bytes of `"bytes"` yield the text payload `"bytes"`. -/
theorem classify_bytes_as_decoded_string :
    (∀ b : List Char,
      setEntryPayload (GoValue.bytes b) = setEntryPayload (GoValue.str (String.mk b))) ∧
    setEntryPayload (GoValue.bytes "bytes".data) = Except.ok (Payload.TextPayload "bytes") := by
  refine ⟨fun b => rfl, by rfl⟩

/-- C7: a non-nil, non-string, non-bytes value with no fields, whose
`json.Marshal` output is the two-character document of an empty object,
is classified as a structured payload holding the empty document, not as
text. -/
theorem classify_emptyStruct_structured :
    setEntryPayload (GoValue.other (Except.ok "\x7b\x7d")) =
      Except.ok (Payload.JsonPayload (Json.obj [])) := by
  rfl

/-- Helper for C8: if the classification tail maps some string `t` to the
text payload `s`, then `s` is `t` itself (both text-producing paths of
`classifyString` return their input unchanged). -/
theorem classifyString_text_eq (t s : String)
    (h : classifyString t = Payload.TextPayload s) : s = t := by
  unfold classifyString at h
  split at h
  · cases hj : jsonpbUnmarshalString t with
    | some p => rw [hj] at h; exact absurd h (by simp)
    | none => rw [hj] at h; exact (Payload.TextPayload.injEq t s).mp h |>.symm
  · exact (Payload.TextPayload.injEq t s).mp h |>.symm

/-- C8: classification is stable on its own text form: whenever
`setEntryPayload x` stores the text payload `s`, classifying the string
`s` again stores the same text payload `s`. -/
theorem classify_text_idempotent (x : GoValue) (s : String)
    (h : setEntryPayload x = Except.ok (Payload.TextPayload s)) :
    setEntryPayload (GoValue.str s) = Except.ok (Payload.TextPayload s) := by
  have hc : ∃ t, classifyString t = Payload.TextPayload s := by
    cases x with
    | str t => exact ⟨t, by simpa [setEntryPayload, candidateString] using h⟩
    | bytes b => exact ⟨String.mk b, by simpa [setEntryPayload, candidateString] using h⟩
    | nilInterface => exact ⟨"", by simpa [setEntryPayload, candidateString] using h⟩
    | other m =>
      cases m with
      | error e => simp [setEntryPayload, candidateString] at h
      | ok d => exact ⟨d, by simpa [setEntryPayload, candidateString] using h⟩
  obtain ⟨t, ht⟩ := hc
  have hst : s = t := classifyString_text_eq t s ht
  simp only [setEntryPayload, candidateString]
  rw [hst] at ht ⊢
  rw [ht]

/-- Witness for C8: the byte slice of `"bytes"` classifies to the text
payload `"bytes"`, and reclassifying that string is stable. -/
theorem classify_text_idempotent_witness :
    setEntryPayload (GoValue.bytes "bytes".data) = Except.ok (Payload.TextPayload "bytes") ∧
    setEntryPayload (GoValue.str "bytes") = Except.ok (Payload.TextPayload "bytes") :=
  ⟨by rfl, classify_text_idempotent (GoValue.bytes "bytes".data) "bytes" (by rfl)⟩

/-- C9: the package-level `Log` (whose embedding returns a pure
`LogEffects` record with no error component, as the Go function returns
nothing) swallows construction failure: when the singleton is
uninitialized and `NewClient` fails, no call to the client's `Log` is
made, the failure goes only to the diagnostic side-channel, and the
singleton stays uninitialized; and each fixed-severity alias is exactly
`Log` at its severity, so the same holds for all of them. -/
theorem singleton_log_swallows_errors (clo : Except String Unit) (sev : Severity)
    (p : GoValue) (e : String) :
    (goLog ⟨Except.error e, clo⟩ none sev p).clientLogCalls = [] ∧
    (goLog ⟨Except.error e, clo⟩ none sev p).diagnostics =
      ["Could not create client to log payload: " ++ e] ∧
    (goLog ⟨Except.error e, clo⟩ none sev p).singletonAfter = none ∧
    goDebug ⟨Except.error e, clo⟩ none p = goLog ⟨Except.error e, clo⟩ none SeverityDebug p ∧
    goInfo ⟨Except.error e, clo⟩ none p = goLog ⟨Except.error e, clo⟩ none SeverityInfo p ∧
    goWarn ⟨Except.error e, clo⟩ none p = goLog ⟨Except.error e, clo⟩ none SeverityWarning p ∧
    goError ⟨Except.error e, clo⟩ none p = goLog ⟨Except.error e, clo⟩ none SeverityError p ∧
    goCritical ⟨Except.error e, clo⟩ none p =
      goLog ⟨Except.error e, clo⟩ none SeverityCritical p := by
  refine ⟨rfl, rfl, rfl, rfl, rfl, rfl, rfl, rfl⟩

/-- C10: a non-nil value in the `default` branch whose `json.Marshal`
output is the four-character document `null` — such as a non-nil
interface wrapping a typed nil pointer, which fails the branch's
`v == nil` test — is serialized rather than short-circuited, and since
its serialization does not start with the left brace it is classified as
the text payload of that serialization, not as the empty text payload. -/
theorem classify_typedNil_textNull :
    setEntryPayload (GoValue.other (Except.ok "null")) =
      Except.ok (Payload.TextPayload "null") ∧
    Payload.TextPayload "null" ≠ Payload.TextPayload "" := by
  refine ⟨by rfl, by simp⟩

end Cflog
